import Mathlib

/-!
Verification development for the Deezer playlist updater
(`src/main.py`, `src/access_token.py`).

Shallow embedding conventions:
* Python track ids (arbitrary-precision ints) are `ℤ`.
* Python `set` arithmetic over ids is `Finset ℤ` (built by `List.toFinset`,
  matching `set(xs)` applied to a Python list).
* Timestamps (`time.time()` floats) are `ℚ`.
* Remote HTTP responses are supplied as explicit environment functions;
  a raised exception is an explicit constructor, never an implicit crash.
* Each outbound call site emits events (`Ev.rate` for
  `limiter.add_request()`, `Ev.req` for the remote request itself) so that
  rate-accounting structure is visible in the model.
-/

namespace DPU

/-- Events emitted by the embedded code: `rate` is a call to
`RateLimiter.add_request`, `req` is an outbound remote request
(an HTTP `GET` or a deezer-python API invocation). -/
inductive Ev where
  | rate : Ev
  | req : Ev
deriving DecidableEq, Repr

/-- A trace in which every remote request is immediately preceded by exactly
one `add_request` call: the trace is a sequence of `[rate, req]` pairs. -/
inductive Paired : List Ev → Prop where
  | nil : Paired []
  | pair (rest : List Ev) : Paired rest → Paired (Ev.rate :: Ev.req :: rest)

/-! ### Reconciler diff step (`update_daily_playlist`, main.py lines 184–187)

```python
new_tracks_ids = list(
    set(new_tracks) - set(playlist_tracks_ids) - set(listened_tracks))
listened_tracks_in_playlist = list(
    set(listened_tracks) & set(playlist_tracks_ids))
```
-/

/-- `new_tracks_ids` of `update_daily_playlist`: the set difference
`set(new_tracks) - set(playlist_tracks_ids) - set(listened_tracks)`. -/
def new_tracks_ids (new_tracks playlist_tracks_ids listened_tracks : List ℤ) :
    Finset ℤ :=
  (new_tracks.toFinset \ playlist_tracks_ids.toFinset) \ listened_tracks.toFinset

/-- `listened_tracks_in_playlist` of `update_daily_playlist`:
`set(listened_tracks) & set(playlist_tracks_ids)`. -/
def listened_tracks_in_playlist (listened_tracks playlist_tracks_ids : List ℤ) :
    Finset ℤ :=
  listened_tracks.toFinset ∩ playlist_tracks_ids.toFinset

/-- The two mutation calls `update_daily_playlist` can issue
(main.py lines 189–203). -/
inductive Mutation where
  | addTracks (ids : Finset ℤ) : Mutation
  | deleteTracks (ids : Finset ℤ) : Mutation
deriving DecidableEq

/-- The mutation calls issued by `update_daily_playlist` (lines 189–203):
`add_tracks` only when `new_tracks_ids` is non-empty (Python list truthiness),
`delete_tracks` only when `listened_tracks_in_playlist` is non-empty;
an empty set skips the call entirely. -/
def update_mutations (new_tracks playlist_tracks_ids listened_tracks : List ℤ) :
    List Mutation :=
  (if new_tracks_ids new_tracks playlist_tracks_ids listened_tracks = ∅ then []
   else [Mutation.addTracks (new_tracks_ids new_tracks playlist_tracks_ids listened_tracks)]) ++
  (if listened_tracks_in_playlist listened_tracks playlist_tracks_ids = ∅ then []
   else [Mutation.deleteTracks (listened_tracks_in_playlist listened_tracks playlist_tracks_ids)])

/-- C1: the reconciler's add-set is new-release ids minus current-playlist ids
minus listened ids, the remove-set is listened ∩ current; hence the add-set is
disjoint from the listened ids and from the current-playlist ids, and the
remove-set is contained in the current-playlist ids. -/
theorem reconciler_diff_sets (new_tracks playlist_tracks_ids listened_tracks : List ℤ) :
    new_tracks_ids new_tracks playlist_tracks_ids listened_tracks =
      (new_tracks.toFinset \ playlist_tracks_ids.toFinset) \ listened_tracks.toFinset ∧
    listened_tracks_in_playlist listened_tracks playlist_tracks_ids =
      listened_tracks.toFinset ∩ playlist_tracks_ids.toFinset ∧
    Disjoint (new_tracks_ids new_tracks playlist_tracks_ids listened_tracks)
      listened_tracks.toFinset ∧
    Disjoint (new_tracks_ids new_tracks playlist_tracks_ids listened_tracks)
      playlist_tracks_ids.toFinset ∧
    listened_tracks_in_playlist listened_tracks playlist_tracks_ids ⊆
      playlist_tracks_ids.toFinset := by
  refine ⟨rfl, rfl, ?_, ?_, ?_⟩
  · simp only [new_tracks_ids, Finset.disjoint_left, Finset.mem_sdiff]
    tauto
  · simp only [new_tracks_ids, Finset.disjoint_left, Finset.mem_sdiff]
    tauto
  · simp only [listened_tracks_in_playlist]
    exact Finset.inter_subset_right

/-- C8: with unchanged new-release and listened sets, a second run whose
playlist contents are the first run's contents plus its add-set minus its
remove-set computes an empty add-set and an empty remove-set, and issues no
mutation call at all. -/
theorem reconciler_idempotent (new_tracks playlist1 listened_tracks playlist2 : List ℤ)
    (h : playlist2.toFinset =
      (playlist1.toFinset ∪ new_tracks_ids new_tracks playlist1 listened_tracks) \
        listened_tracks_in_playlist listened_tracks playlist1) :
    new_tracks_ids new_tracks playlist2 listened_tracks = ∅ ∧
    listened_tracks_in_playlist listened_tracks playlist2 = ∅ ∧
    update_mutations new_tracks playlist2 listened_tracks = [] := by
  have hadd : new_tracks_ids new_tracks playlist2 listened_tracks = ∅ := by
    ext x
    simp only [new_tracks_ids, listened_tracks_in_playlist, Finset.mem_sdiff, h,
      Finset.mem_union, Finset.mem_inter, Finset.not_mem_empty, iff_false, not_and, not_not]
    tauto
  have hrem : listened_tracks_in_playlist listened_tracks playlist2 = ∅ := by
    ext x
    simp only [new_tracks_ids, listened_tracks_in_playlist, Finset.mem_sdiff, h,
      Finset.mem_union, Finset.mem_inter, Finset.not_mem_empty, iff_false, not_and, not_not]
    tauto
  refine ⟨hadd, hrem, ?_⟩
  simp [update_mutations, hadd, hrem]

/-- Witness for `reconciler_idempotent` at concrete inputs: new releases
`[1, 2]`, first-run playlist `[2, 4]`, listened `[3]`; the first run adds `1`
and removes nothing, so the second-run playlist is `[1, 2, 4]`. -/
theorem reconciler_idempotent_witness :
    new_tracks_ids [1, 2] [1, 2, 4] [3] = ∅ ∧
    listened_tracks_in_playlist [3] [1, 2, 4] = ∅ ∧
    update_mutations [1, 2] [1, 2, 4] [3] = [] :=
  reconciler_idempotent [1, 2] [2, 4] [3] [1, 2, 4] (by decide)

/-! ### RateLimiter (main.py lines 15–30)

```python
def wait(self):
    while len(self.requests) >= self.max_requests:
        if time.time() - self.requests[0] > self.period:
            self.requests.pop(0)
        else:
            time.sleep(self.period - (time.time() - self.requests[0]))

def add_request(self):
    self.wait()
    self.requests.append(time.time())
```

The limiter state is the list `self.requests` of recorded timestamps, oldest
first. The wall clock only moves forward; every fresh `time.time()` read is
some value at least as large as the previous one, so the loop is embedded as
a relation in which each read is an arbitrary later time. A sleep of
`period - (now - requests[0])` seconds ends at a time that is at least
`requests[0] + period`. -/

/-- One full run of `RateLimiter.wait`, from state `reqs` at time `t` to
state `out` at time `tout`. `exit` is the loop guard failing; `pop` is the
expired-head branch; `sleep` is the else branch, which resumes at some time
no earlier than `head + period`. -/
inductive WaitRun (maxR : ℕ) (period : ℚ) : List ℚ → ℚ → List ℚ → ℚ → Prop where
  | exit (reqs : List ℚ) (t : ℚ) (h : reqs.length < maxR) :
      WaitRun maxR period reqs t reqs t
  | pop (r0 : ℚ) (rest : List ℚ) (t t2 : ℚ) (out : List ℚ) (tout : ℚ)
      (hlen : maxR ≤ (r0 :: rest).length) (ht : t ≤ t2) (hexp : t2 - r0 > period)
      (next : WaitRun maxR period rest t2 out tout) :
      WaitRun maxR period (r0 :: rest) t out tout
  | sleep (r0 : ℚ) (rest : List ℚ) (t t2 t3 : ℚ) (out : List ℚ) (tout : ℚ)
      (hlen : maxR ≤ (r0 :: rest).length) (ht : t ≤ t2) (hfresh : t2 - r0 ≤ period)
      (hwake : r0 + period ≤ t3) (ht3 : t2 ≤ t3)
      (next : WaitRun maxR period (r0 :: rest) t3 out tout) :
      WaitRun maxR period (r0 :: rest) t out tout

/-- `RateLimiter.add_request`: run `wait`, then append a fresh `time.time()`
read `tout` to the list. -/
def add_request (maxR : ℕ) (period : ℚ) (reqs : List ℚ) (t : ℚ)
    (out : List ℚ) (tout : ℚ) : Prop :=
  ∃ reqs' t', WaitRun maxR period reqs t reqs' t' ∧ t' ≤ tout ∧ out = reqs' ++ [tout]

/-- Limiter states reachable from the freshly constructed limiter
(`self.requests = []`) by any sequence of `add_request` calls, with arbitrary
forward clock movement between calls. -/
inductive ReachRL (maxR : ℕ) (period : ℚ) : List ℚ → ℚ → Prop where
  | init (t0 : ℚ) : ReachRL maxR period [] t0
  | step (reqs : List ℚ) (t t1 : ℚ) (out : List ℚ) (tout : ℚ)
      (hreach : ReachRL maxR period reqs t) (ht : t ≤ t1)
      (hadd : add_request maxR period reqs t1 out tout) :
      ReachRL maxR period out tout

/-- A terminated `wait` leaves strictly fewer than `max_requests` recorded
timestamps: the loop only exits through its guard. -/
theorem WaitRun.out_length_lt (maxR : ℕ) (period : ℚ) (reqs : List ℚ) (t : ℚ)
    (out : List ℚ) (tout : ℚ) (h : WaitRun maxR period reqs t out tout) :
    out.length < maxR := by
  induction h with
  | exit reqs t h => exact h
  | pop r0 rest t t2 out tout hlen ht hexp next ih => exact ih
  | sleep r0 rest t t2 t3 out tout hlen ht hfresh hwake ht3 next ih => exact ih

/-- C2: in every reachable limiter state the recorded list holds at most
`max_requests` timestamps, so in particular at most `max_requests` of them
are younger than `period` seconds at any time `now`. -/
theorem rate_limiter_window_bound (maxR : ℕ) (period : ℚ) (reqs : List ℚ) (t : ℚ)
    (h : ReachRL maxR period reqs t) (now : ℚ) :
    reqs.length ≤ maxR ∧
      (reqs.filter (fun s => decide (now - s < period))).length ≤ maxR := by
  have hlen : reqs.length ≤ maxR := by
    induction h with
    | init t0 => exact Nat.zero_le maxR
    | step reqs t t1 out tout hreach ht hadd ih =>
      obtain ⟨reqs', t', hwait, htle, hout⟩ := hadd
      have := WaitRun.out_length_lt maxR period reqs t1 reqs' t' hwait
      subst hout
      simpa [List.length_append] using this
  exact ⟨hlen, le_trans (List.length_filter_le _ reqs) hlen⟩

/-- Witness for `rate_limiter_window_bound`: with `max_requests = 1`,
`period = 5`, the state `[3]` at time `3` is reached by one `add_request`
from the empty limiter, and the bound holds at `now = 7`. -/
theorem rate_limiter_window_bound_witness :
    [(3 : ℚ)].length ≤ 1 ∧
      ([(3 : ℚ)].filter (fun s => decide ((7 : ℚ) - s < 5))).length ≤ 1 :=
  rate_limiter_window_bound 1 5 [3] 3
    (ReachRL.step [] 0 0 [3] 3 (ReachRL.init 0) le_rfl
      ⟨[], 0, WaitRun.exit [] 0 (by norm_num), by norm_num, rfl⟩) 7

/-! ### safe_deezer_request (main.py lines 206–246)

The wrapper loops `for attempt in range(max_retries)` with
`max_retries = 5`; each iteration calls `limiter.add_request()` and then the
underlying deezer-python call. The outcome of attempt `i` is supplied by an
environment function `f : ℕ → CallOutcome α`. A re-raised exception (the
bare `except Exception` branch does `raise e`) is `Except.error ()`. -/

/-- Outcome of one underlying `getattr(obj, method)(*args, **kwargs)` call:
success, or one of the exception classes the wrapper catches, or any other
exception (`generic`). -/
inductive CallOutcome (α : Type) where
  | ok (v : α) : CallOutcome α
  | forbidden : CallOutcome α
  | retryable : CallOutcome α
  | notFound : CallOutcome α
  | errorResponse (code : ℤ) (message : String) : CallOutcome α
  | httpError : CallOutcome α
  | generic : CallOutcome α
deriving DecidableEq

/-- Outcomes on which the loop continues to the next attempt
(`DeezerForbiddenError` and `DeezerRetryableHTTPError`, both after a
5-second sleep). -/
def retriedOutcome {α : Type} (o : CallOutcome α) : Prop :=
  o = CallOutcome.forbidden ∨ o = CallOutcome.retryable

instance {α : Type} [DecidableEq α] (o : CallOutcome α) :
    Decidable (retriedOutcome o) := by
  unfold retriedOutcome; infer_instance

/-- Outcomes the wrapper absorbs immediately as `return None`
(`DeezerNotFoundError`, `DeezerErrorResponse` — both of whose branches
return `None` —, and `DeezerHTTPError`). -/
def absorbedOutcome {α : Type} (o : CallOutcome α) : Prop :=
  o = CallOutcome.notFound ∨ (∃ c m, o = CallOutcome.errorResponse c m) ∨
    o = CallOutcome.httpError

/-- The retry loop of `safe_deezer_request`, with `n` attempts remaining and
`i` attempts already made; returns the result together with the event trace
(one `add_request` and one remote call per attempt). Falling out of the loop
is `return None` after the `Max retries reached` message. -/
def safeLoop {α : Type} (f : ℕ → CallOutcome α) :
    ℕ → ℕ → Except Unit (Option α) × List Ev
  | 0, _ => (Except.ok none, [])
  | n + 1, i =>
    match f i with
    | CallOutcome.ok v => (Except.ok (some v), [Ev.rate, Ev.req])
    | CallOutcome.forbidden =>
        let r := safeLoop f n (i + 1)
        (r.1, Ev.rate :: Ev.req :: r.2)
    | CallOutcome.retryable =>
        let r := safeLoop f n (i + 1)
        (r.1, Ev.rate :: Ev.req :: r.2)
    | CallOutcome.notFound => (Except.ok none, [Ev.rate, Ev.req])
    | CallOutcome.errorResponse _ _ => (Except.ok none, [Ev.rate, Ev.req])
    | CallOutcome.httpError => (Except.ok none, [Ev.rate, Ev.req])
    | CallOutcome.generic => (Except.error (), [Ev.rate, Ev.req])

/-- `safe_deezer_request` with `max_retries = 5`. -/
def safe_deezer_request {α : Type} (f : ℕ → CallOutcome α) :
    Except Unit (Option α) × List Ev :=
  safeLoop f 5 0

/-- The loop makes at most `n` attempts: the trace has at most `n` remote
calls. -/
theorem safeLoop_req_count {α : Type} [DecidableEq α] (f : ℕ → CallOutcome α) :
    ∀ n i, ((safeLoop f n i).2.count Ev.req) ≤ n := by
  intro n
  induction n with
  | zero => intro i; simp [safeLoop]
  | succ n ih =>
    intro i
    cases h : f i <;>
      simp [safeLoop, h, List.count_cons] <;>
      exact ih (i + 1)

/-- If every attempt the loop can make is retried, the loop exhausts its
attempts and returns `None`. -/
theorem safeLoop_exhaust {α : Type} (f : ℕ → CallOutcome α) :
    ∀ n i, (∀ j, j < n → retriedOutcome (f (i + j))) →
      (safeLoop f n i).1 = Except.ok none := by
  intro n
  induction n with
  | zero => intro i _; simp [safeLoop]
  | succ n ih =>
    intro i hall
    have h0 : retriedOutcome (f i) := by simpa using hall 0 (Nat.succ_pos n)
    have hrest : ∀ j, j < n → retriedOutcome (f (i + 1 + j)) := by
      intro j hj
      have := hall (j + 1) (Nat.succ_lt_succ hj)
      simpa [Nat.add_assoc, Nat.add_comm 1 j] using this
    rcases h0 with h0 | h0 <;> simp [safeLoop, h0, ih (i + 1) hrest]

/-- C4: `safe_deezer_request` makes at most 5 attempts, and when every
attempt fails with a forbidden/rate-limit or retryable-HTTP error it returns
`None` after exhausting them instead of raising. -/
theorem safe_request_bounded_retries {α : Type} [DecidableEq α]
    (f : ℕ → CallOutcome α) :
    ((safe_deezer_request f).2.count Ev.req) ≤ 5 ∧
    ((∀ j, j < 5 → retriedOutcome (f j)) →
      (safe_deezer_request f).1 = Except.ok none) := by
  constructor
  · exact safeLoop_req_count f 5 0
  · intro hall
    exact safeLoop_exhaust f 5 0 (by simpa using hall)

/-- Witness for `safe_request_bounded_retries`: every attempt forbidden. -/
theorem safe_request_bounded_retries_witness :
    ((safe_deezer_request (fun _ => (CallOutcome.forbidden : CallOutcome Unit))).2.count
        Ev.req) ≤ 5 ∧
    (safe_deezer_request (fun _ => (CallOutcome.forbidden : CallOutcome Unit))).1 =
      Except.ok none :=
  ⟨(safe_request_bounded_retries (fun _ => CallOutcome.forbidden)).1,
   (safe_request_bounded_retries (fun _ => CallOutcome.forbidden)).2
     (by intro j hj; exact Or.inl rfl)⟩

/-- A retried outcome is not `generic`. -/
theorem retriedOutcome_ne_generic {α : Type} (o : CallOutcome α)
    (h : retriedOutcome o) : o ≠ CallOutcome.generic := by
  rcases h with h | h <;> simp [h]

/-- If the first attempt is neither `generic` nor retried, no index of the
windowed existential can certify a raise. -/
theorem no_generic_first {α : Type} (f : ℕ → CallOutcome α) (i m : ℕ)
    (h1 : f i ≠ CallOutcome.generic) (h2 : ¬ retriedOutcome (f i)) :
    ¬ (∃ j, j < m ∧ f (i + j) = CallOutcome.generic ∧
        ∀ k, k < j → retriedOutcome (f (i + k))) := by
  rintro ⟨j, hj, hg, hk⟩
  cases j with
  | zero => exact h1 (by simpa using hg)
  | succ j' => exact h2 (by simpa using hk 0 (Nat.succ_pos j'))

/-- Shifting the raise-certificate window past a retried first attempt. -/
theorem shift_generic_certificate {α : Type} (f : ℕ → CallOutcome α) (i n : ℕ)
    (hr : retriedOutcome (f i)) :
    (∃ j, j < n ∧ f (i + 1 + j) = CallOutcome.generic ∧
        ∀ k, k < j → retriedOutcome (f (i + 1 + k))) ↔
    (∃ j, j < n + 1 ∧ f (i + j) = CallOutcome.generic ∧
        ∀ k, k < j → retriedOutcome (f (i + k))) := by
  constructor
  · rintro ⟨j, hj, hg, hk⟩
    refine ⟨j + 1, Nat.succ_lt_succ hj, ?_, ?_⟩
    · have e : i + (j + 1) = i + 1 + j := by omega
      rwa [e]
    · intro k hk'
      cases k with
      | zero => simpa using hr
      | succ k' =>
        have := hk k' (by omega)
        have e : i + 1 + k' = i + (k' + 1) := by omega
        rwa [e] at this
  · rintro ⟨j, hj, hg, hk⟩
    cases j with
    | zero =>
      exact absurd (by simpa using hg) (retriedOutcome_ne_generic (f i) hr)
    | succ j' =>
      refine ⟨j', by omega, ?_, ?_⟩
      · have e : i + 1 + j' = i + (j' + 1) := by omega
        rwa [e]
      · intro k hk'
        have := hk (k + 1) (by omega)
        have e : i + (k + 1) = i + 1 + k := by omega
        rwa [e] at this

/-- The loop raises exactly when, within the attempt budget, a `generic`
failure occurs after a (possibly empty) run of retried attempts. -/
theorem safeLoop_error_iff {α : Type} (f : ℕ → CallOutcome α) :
    ∀ n i, ((safeLoop f n i).1 = Except.error () ↔
      ∃ j, j < n ∧ f (i + j) = CallOutcome.generic ∧
        ∀ k, k < j → retriedOutcome (f (i + k))) := by
  intro n
  induction n with
  | zero =>
    intro i
    simp [safeLoop]
  | succ n ih =>
    intro i
    cases h : f i with
    | ok v =>
      simp only [safeLoop, h]
      constructor
      · intro hfalse; exact absurd hfalse (by simp)
      · intro hex
        exact absurd hex (no_generic_first f i (n + 1) (by simp [h]) (by simp [retriedOutcome, h]))
    | forbidden =>
      simp only [safeLoop, h]
      rw [ih (i + 1)]
      exact shift_generic_certificate f i n (Or.inl h)
    | retryable =>
      simp only [safeLoop, h]
      rw [ih (i + 1)]
      exact shift_generic_certificate f i n (Or.inr h)
    | notFound =>
      simp only [safeLoop, h]
      constructor
      · intro hfalse; exact absurd hfalse (by simp)
      · intro hex
        exact absurd hex (no_generic_first f i (n + 1) (by simp [h]) (by simp [retriedOutcome, h]))
    | errorResponse c m =>
      simp only [safeLoop, h]
      constructor
      · intro hfalse; exact absurd hfalse (by simp)
      · intro hex
        exact absurd hex (no_generic_first f i (n + 1) (by simp [h]) (by simp [retriedOutcome, h]))
    | httpError =>
      simp only [safeLoop, h]
      constructor
      · intro hfalse; exact absurd hfalse (by simp)
      · intro hex
        exact absurd hex (no_generic_first f i (n + 1) (by simp [h]) (by simp [retriedOutcome, h]))
    | generic =>
      simp only [safeLoop, h]
      constructor
      · intro _
        exact ⟨0, Nat.succ_pos n, by simpa using h, fun k hk => absurd hk (Nat.not_lt_zero k)⟩
      · intro _; trivial

/-- A first decisive outcome that the wrapper absorbs yields `return None`. -/
theorem safeLoop_absorbed {α : Type} (f : ℕ → CallOutcome α) :
    ∀ n i j, j < n → (∀ k, k < j → retriedOutcome (f (i + k))) →
      absorbedOutcome (f (i + j)) → (safeLoop f n i).1 = Except.ok none := by
  intro n
  induction n with
  | zero => intro i j hj; omega
  | succ n ih =>
    intro i j hj hk habs
    cases j with
    | zero =>
      rw [Nat.add_zero] at habs
      rcases habs with h | ⟨c, m, h⟩ | h <;> simp [safeLoop, h]
    | succ j' =>
      have hr : retriedOutcome (f i) := by simpa using hk 0 (Nat.succ_pos j')
      have hk' : ∀ k, k < j' → retriedOutcome (f (i + 1 + k)) := by
        intro k hlt
        have := hk (k + 1) (by omega)
        have e : i + (k + 1) = i + 1 + k := by omega
        rwa [e] at this
      have habs' : absorbedOutcome (f (i + 1 + j')) := by
        have e : i + 1 + j' = i + (j' + 1) := by omega
        rwa [e]
      have := ih (i + 1) j' (by omega) hk' habs'
      rcases hr with h | h <;> simp [safeLoop, h, this]

/-- C5: `safe_deezer_request` raises exactly when an attempt fails with a
generic/unexpected error (after only retried attempts before it); a first
decisive not-found, structured service error or non-retryable HTTP error is
absorbed as `None`, never propagated. -/
theorem safe_request_raise_iff {α : Type} (f : ℕ → CallOutcome α) :
    ((safe_deezer_request f).1 = Except.error () ↔
      ∃ j, j < 5 ∧ f j = CallOutcome.generic ∧
        ∀ k, k < j → retriedOutcome (f k)) ∧
    (∀ j, j < 5 → (∀ k, k < j → retriedOutcome (f k)) →
      absorbedOutcome (f j) → (safe_deezer_request f).1 = Except.ok none) := by
  constructor
  · have := safeLoop_error_iff f 5 0
    simpa [safe_deezer_request] using this
  · intro j hj hk habs
    exact safeLoop_absorbed f 5 0 j hj (by simpa using hk) (by simpa using habs)

/-- Witness for `safe_request_raise_iff`: an immediately-generic failure
raises; an immediately-not-found failure is absorbed as `None`. -/
theorem safe_request_raise_iff_witness :
    (safe_deezer_request (fun _ => (CallOutcome.generic : CallOutcome Unit))).1 =
      Except.error () ∧
    (safe_deezer_request (fun _ => (CallOutcome.notFound : CallOutcome Unit))).1 =
      Except.ok none :=
  ⟨(safe_request_raise_iff (fun _ => (CallOutcome.generic : CallOutcome Unit))).1.mpr
      ⟨0, by omega, rfl, fun k hk => absurd hk (Nat.not_lt_zero k)⟩,
   (safe_request_raise_iff (fun _ => (CallOutcome.notFound : CallOutcome Unit))).2
      0 (by omega) (fun k hk => absurd hk (Nat.not_lt_zero k)) (Or.inl rfl)⟩

/-! ### connect_to_deezer (main.py lines 33–47)

```python
def connect_to_deezer(access_token):
    if not access_token:
        print(...); sys.exit(1)
    client = deezer.Client(access_token)
    try:
        user = safe_deezer_request(client, "get_user", user_id='me')
        print("Successfully connected to Deezer!")
    except Exception as e:
        print(...); sys.exit(1)
    return client, user
```

The identity fetch's per-attempt outcomes are the environment `f`; the
returned `user` is whatever `safe_deezer_request` returns (possibly `None`,
when the wrapper absorbed a service error). -/

/-- Result of the session bootstrap: `exit code` models `sys.exit(code)`,
`connected u` models returning normally with `user = u`. -/
inductive BootResult (α : Type) where
  | exit (code : ℕ) : BootResult α
  | connected (user : Option α) : BootResult α
deriving DecidableEq

/-- Python truthiness of the `access_token` argument
(`if not access_token`): `None` and the empty string are falsy. -/
def tokenFalsy : Option String → Bool
  | none => true
  | some s => s == ""

/-- `connect_to_deezer`: exit 1 on a falsy token; otherwise run the identity
fetch through `safe_deezer_request`, exiting 1 only if it raises. -/
def connect_to_deezer {α : Type} (access_token : Option String)
    (f : ℕ → CallOutcome α) : BootResult α :=
  if tokenFalsy access_token then BootResult.exit 1
  else
    match (safe_deezer_request f).1 with
    | Except.error _ => BootResult.exit 1
    | Except.ok u => BootResult.connected u

/-- C7 counterexample: with a token configured and every identity-fetch
attempt failing with a not-found service error, the bootstrap does not exit;
it returns connected with an absent user, so a reconciliation run proceeds. -/
theorem connect_no_exit_on_absorbed_error :
    connect_to_deezer (some "token")
        (fun _ => (CallOutcome.notFound : CallOutcome Unit)) =
      BootResult.connected none ∧
    BootResult.connected (none : Option Unit) ≠ BootResult.exit 1 := by
  constructor
  · rfl
  · simp

/-- C7 amended: the bootstrap exits 1 when the token is missing/empty, and
when the identity fetch raises out of the wrapper (a generic/unexpected
error); when the wrapper returns — including when it absorbed a recognized
service error into an absent user — the bootstrap returns connected and the
run proceeds. -/
theorem connect_exit_characterization {α : Type} (access_token : Option String)
    (f : ℕ → CallOutcome α) :
    (tokenFalsy access_token = true →
      connect_to_deezer access_token f = BootResult.exit 1) ∧
    (tokenFalsy access_token = false →
      (safe_deezer_request f).1 = Except.error () →
      connect_to_deezer access_token f = BootResult.exit 1) ∧
    (∀ u, tokenFalsy access_token = false →
      (safe_deezer_request f).1 = Except.ok u →
      connect_to_deezer access_token f = BootResult.connected u) := by
  refine ⟨?_, ?_, ?_⟩
  · intro h; simp [connect_to_deezer, h]
  · intro h herr; simp [connect_to_deezer, h, herr]
  · intro u h hok; simp [connect_to_deezer, h, hok]

/-- Witness for `connect_exit_characterization`: a missing token exits, a
generic identity-fetch failure exits, an absorbed one connects. -/
theorem connect_exit_characterization_witness :
    connect_to_deezer none (fun _ => (CallOutcome.generic : CallOutcome Unit)) =
      BootResult.exit 1 ∧
    connect_to_deezer (some "t") (fun _ => (CallOutcome.generic : CallOutcome Unit)) =
      BootResult.exit 1 ∧
    connect_to_deezer (some "t") (fun _ => (CallOutcome.httpError : CallOutcome Unit)) =
      BootResult.connected none :=
  ⟨(connect_exit_characterization none (fun _ => CallOutcome.generic)).1 rfl,
   (connect_exit_characterization (some "t") (fun _ => CallOutcome.generic)).2.1
      (by decide) rfl,
   (connect_exit_characterization (some "t") (fun _ => CallOutcome.httpError)).2.2
      none (by decide) rfl⟩

/-! ### Paginated fetchers (main.py lines 89–114 and 142–157)

`requests.get(url)` is an environment function from the URL to either a
response or a raised exception (`requests.get` raises `MissingSchema`
before any network traffic when the URL has no scheme — in particular for
the literal string `"None"`). Loops carry fuel; a finite page chain needs
only as much fuel as it has pages plus one. -/

/-- A `requests.get` either raises or yields a response of type `ρ`. -/
inductive HttpResult (ρ : Type) where
  | raises : HttpResult ρ
  | resp (r : ρ) : HttpResult ρ
deriving DecidableEq

/-- A listening-history page: HTTP status, `data` entries as
(timestamp, track id) pairs, and the optional `next` URL
(`response.json().get('next')`). -/
structure HistoryResp where
  status : ℕ
  data : List (ℤ × ℤ)
  next : Option String
deriving DecidableEq

/-- A playlist-tracks page: HTTP status, `data` track ids, optional `next`. -/
structure PageResp where
  status : ℕ
  data : List ℤ
  next : Option String
deriving DecidableEq

/-- What a fetcher run does: return the accumulated ids, escape with an
uncaught exception, or run out of modelling fuel. -/
inductive FetchOutcome where
  | ok (tracks : List ℤ) : FetchOutcome
  | raised : FetchOutcome
  | fuelOut : FetchOutcome
deriving DecidableEq

/-- Python `str(x)` applied to the value of `.get('next')`: the URL itself
when present, the four-character string `"None"` when absent
(main.py line 112). -/
def pyStrOfNext : Option String → String
  | none => "None"
  | some s => s

/-- The inner `for entry in history_data` loop of
`get_tracks_listened_last_hours`: append ids while the entry timestamp is
within the window, `return` the accumulator at the first older entry. -/
inductive ScanResult where
  | early (acc : List ℤ) : ScanResult
  | all (acc : List ℤ) : ScanResult
deriving DecidableEq

/-- Walk one page's entries (timestamp, id), accumulating ids of entries at
or after `time_limit`; stop early (returning from the whole function) at the
first older entry. -/
def scanHistory (time_limit : ℤ) : List (ℤ × ℤ) → List ℤ → ScanResult
  | [], acc => ScanResult.all acc
  | (ts, tid) :: rest, acc =>
    if time_limit ≤ ts then scanHistory time_limit rest (acc ++ [tid])
    else ScanResult.early acc

/-- The `while url:` loop of `get_tracks_listened_last_hours`. Each
iteration: `limiter.add_request()`, `requests.get(url)`; non-200 breaks the
loop; otherwise scan the page entries; then
`url = str(response.json().get('next'))`. -/
def historyLoop (env : String → HttpResult HistoryResp) (time_limit : ℤ) :
    ℕ → String → List ℤ → FetchOutcome × List Ev
  | 0, _, _ => (FetchOutcome.fuelOut, [])
  | fuel + 1, url, acc =>
    if url = "" then (FetchOutcome.ok acc, [])
    else
      match env url with
      | HttpResult.raises => (FetchOutcome.raised, [Ev.rate, Ev.req])
      | HttpResult.resp r =>
        if r.status ≠ 200 then (FetchOutcome.ok acc, [Ev.rate, Ev.req])
        else
          match scanHistory time_limit r.data acc with
          | ScanResult.early acc' => (FetchOutcome.ok acc', [Ev.rate, Ev.req])
          | ScanResult.all acc' =>
            let r2 := historyLoop env time_limit fuel (pyStrOfNext r.next) acc'
            (r2.1, Ev.rate :: Ev.req :: r2.2)

/-- `get_tracks_listened_last_hours`, from its initial history URL. -/
def get_tracks_listened_last_hours (env : String → HttpResult HistoryResp)
    (time_limit : ℤ) (fuel : ℕ) (start_url : String) : FetchOutcome × List Ev :=
  historyLoop env time_limit fuel start_url []

/-- The `while url:` loop of `get_all_tracks_from_playlist`. Here
`url = data.get('next')` keeps the genuine `None`, which is falsy and ends
the loop. -/
def playlistLoop (env : String → HttpResult PageResp) :
    ℕ → Option String → List ℤ → FetchOutcome × List Ev
  | 0, _, _ => (FetchOutcome.fuelOut, [])
  | fuel + 1, u, acc =>
    match u with
    | none => (FetchOutcome.ok acc, [])
    | some url =>
      if url = "" then (FetchOutcome.ok acc, [])
      else
        match env url with
        | HttpResult.raises => (FetchOutcome.raised, [Ev.rate, Ev.req])
        | HttpResult.resp r =>
          if r.status ≠ 200 then (FetchOutcome.ok acc, [Ev.rate, Ev.req])
          else
            let r2 := playlistLoop env fuel r.next (acc ++ r.data)
            (r2.1, Ev.rate :: Ev.req :: r2.2)

/-- `get_all_tracks_from_playlist`, from its initial tracks URL. -/
def get_all_tracks_from_playlist (env : String → HttpResult PageResp)
    (fuel : ℕ) (start_url : String) : FetchOutcome × List Ev :=
  playlistLoop env fuel (some start_url) []

/-- A two-page playlist chain: page `p0` holds tracks 1, 2 and links to
`p1`; page `p1` holds track 3 and has no `next`. Any other URL (none is
requested) raises. -/
def playlistChain2 : String → HttpResult PageResp
  | "p0" => HttpResult.resp ⟨200, [1, 2], some "p1"⟩
  | "p1" => HttpResult.resp ⟨200, [3], none⟩
  | _ => HttpResult.raises

/-- A one-page history chain: page `h0` holds two entries inside the
lookback window and has no `next` key. The string `"None"` is not a URL:
`requests.get("None")` raises `MissingSchema`. -/
def historyChain1 : String → HttpResult HistoryResp
  | "h0" => HttpResult.resp ⟨200, [(100, 11), (90, 12)], none⟩
  | _ => HttpResult.raises

/-- C3, settled against the code: on a finite chain the playlist fetcher
returns every page's items once, but the history fetcher, after consuming
the last page, sets `url = str(None) = "None"` — a truthy string — and
issues one more request to the invalid URL `"None"`, escaping with an
exception instead of returning the collected ids. -/
theorem pagination_last_page_behavior :
    (get_all_tracks_from_playlist playlistChain2 3 "p0").1 =
      FetchOutcome.ok [1, 2, 3] ∧
    (get_tracks_listened_last_hours historyChain1 50 3 "h0").1 =
      FetchOutcome.raised ∧
    (get_tracks_listened_last_hours historyChain1 50 3 "h0").1 ≠
      FetchOutcome.ok [11, 12] := by
  refine ⟨by decide, by decide, by decide⟩

/-! ### find_or_create_playlist (main.py lines 117–128)

```python
playlists = safe_deezer_request(user, "search_playlists", query=...)
if not playlists:
    return create_playlist(playlist_name)
for playlist in playlists:
    if playlist.title.lower() == playlist_name.lower() and playlist.creator.id == user.id:
        return str(playlist.id)
```

When the loop finds no match the function falls off its end: Python returns
`None`. The create branch is abstracted by `created_id` (the id
`create_playlist` would hand back); the boolean of the result records
whether that branch ran. -/

/-- One playlist from the search results. -/
structure PlaylistInfo where
  title : String
  creatorId : ℤ
  id : ℤ
deriving DecidableEq

/-- `if not playlists`: the search result is falsy when the wrapper returned
`None` or the result list is empty. -/
def searchFalsy : Option (List PlaylistInfo) → Bool
  | none => true
  | some l => l.isEmpty

/-- Python `str.lower()`, character by character. -/
def pyLower (s : String) : String :=
  String.mk (s.data.map Char.toLower)

/-- The `for playlist in playlists` loop: the first result whose title
matches case-insensitively and whose creator is the current user is
returned as `str(playlist.id)`; otherwise `None`. -/
def firstMatch (playlist_name : String) (user_id : ℤ) :
    List PlaylistInfo → Option String
  | [] => none
  | p :: rest =>
    if pyLower p.title = pyLower playlist_name ∧ p.creatorId = user_id
    then some (toString p.id)
    else firstMatch playlist_name user_id rest

/-- `find_or_create_playlist`: the result id (or Python `None`), paired with
whether the `create_playlist` branch was taken. -/
def find_or_create_playlist (playlist_name : String)
    (search_result : Option (List PlaylistInfo)) (user_id : ℤ)
    (created_id : String) : Option String × Bool :=
  if searchFalsy search_result then (some created_id, true)
  else (firstMatch playlist_name user_id (search_result.getD []), false)

/-- C6, settled against the code: when the search returns results but none
matches, `find_or_create_playlist` returns `None` without creating anything
(first conjunct); a case-insensitive title match with the right creator is
returned (second conjunct); only a falsy search result reaches the create
branch (third conjunct). -/
theorem find_or_create_no_match_returns_none :
    find_or_create_playlist "Daily Mix" (some [⟨"Other Playlist", 7, 42⟩]) 7 "99" =
      (none, false) ∧
    find_or_create_playlist "Daily Mix" (some [⟨"DAILY mix", 7, 42⟩]) 7 "99" =
      (some "42", false) ∧
    find_or_create_playlist "Daily Mix" (some []) 7 "99" = (some "99", true) := by
  refine ⟨by decide, by decide, by decide⟩

/-! ### Rate accounting at every outbound call site (C9)

The fourth call site, `update_daily_playlist` lines 165–167:
```python
limiter.add_request()
response = requests.get(f"https://api.deezer.com/playlist/.../{playlist_id}")
```
-/

/-- The playlist-id verification call site in `update_daily_playlist`:
one `limiter.add_request()` immediately followed by one `requests.get`. -/
def playlist_id_lookup {ρ : Type} (env : String → ρ) (url : String) :
    ρ × List Ev :=
  (env url, [Ev.rate, Ev.req])

/-- Every trace of the history-fetch loop is a run of
`add_request`/request pairs. -/
theorem historyLoop_paired (env : String → HttpResult HistoryResp)
    (time_limit : ℤ) :
    ∀ fuel url acc, Paired (historyLoop env time_limit fuel url acc).2 := by
  intro fuel
  induction fuel with
  | zero => intro url acc; exact Paired.nil
  | succ n ih =>
    intro url acc
    simp only [historyLoop]
    split
    · exact Paired.nil
    · split
      · exact Paired.pair [] Paired.nil
      · split
        · exact Paired.pair [] Paired.nil
        · split
          · exact Paired.pair [] Paired.nil
          · exact Paired.pair _ (ih _ _)

/-- Every trace of the playlist-fetch loop is a run of
`add_request`/request pairs. -/
theorem playlistLoop_paired (env : String → HttpResult PageResp) :
    ∀ fuel u acc, Paired (playlistLoop env fuel u acc).2 := by
  intro fuel
  induction fuel with
  | zero => intro u acc; exact Paired.nil
  | succ n ih =>
    intro u acc
    simp only [playlistLoop]
    split
    · exact Paired.nil
    · split
      · exact Paired.nil
      · split
        · exact Paired.pair [] Paired.nil
        · split
          · exact Paired.pair [] Paired.nil
          · exact Paired.pair _ (ih _ _)

/-- Every trace of the executor's retry loop is a run of
`add_request`/request pairs. -/
theorem safeLoop_paired {α : Type} (f : ℕ → CallOutcome α) :
    ∀ n i, Paired (safeLoop f n i).2 := by
  intro n
  induction n with
  | zero => intro i; exact Paired.nil
  | succ n ih =>
    intro i
    cases h : f i <;>
      simp only [safeLoop, h] <;>
      first
        | exact Paired.pair [] Paired.nil
        | exact Paired.pair _ (ih _)

/-- C9: every outbound remote request of the modelled call sites — the
listening-history GETs, the playlist-contents GETs, the playlist-id lookup
GET, and every attempt inside `safe_deezer_request` — is immediately
preceded by exactly one `RateLimiter.add_request`: every trace is a
sequence of `[rate, req]` pairs. -/
theorem every_request_rate_limited {α ρ : Type}
    (envH : String → HttpResult HistoryResp) (time_limit : ℤ)
    (envP : String → HttpResult PageResp) (envL : String → ρ)
    (f : ℕ → CallOutcome α) (fuelH fuelP : ℕ)
    (startH startP lookupUrl : String) :
    Paired (get_tracks_listened_last_hours envH time_limit fuelH startH).2 ∧
    Paired (get_all_tracks_from_playlist envP fuelP startP).2 ∧
    Paired (playlist_id_lookup envL lookupUrl).2 ∧
    Paired (safe_deezer_request f).2 := by
  refine ⟨historyLoop_paired envH time_limit fuelH startH [],
    playlistLoop_paired envP fuelP (some startP) [],
    Paired.pair [] Paired.nil,
    safeLoop_paired f 5 0⟩

/-! ### NAMES serialization round-trip (C10)

Encoder (access_token.py, `update_names_in_env`, line 170):
`updated_names_str = json.dumps(names_list)` — the default
`ensure_ascii=True`, separator `", "`.

Decoder (main.py, entry point, lines 268–269):
```python
names = names[1:-1].split(", ")
names = [name[1:-1] for name in names]
```

Python strings are modelled as `List Char`. -/

/-- Lowercase hex digit, as used by `json.dumps` \uXXXX escapes. -/
def hexDigit (n : ℕ) : Char :=
  if n < 10 then Char.ofNat (48 + n) else Char.ofNat (87 + n)

/-- Four lowercase hex digits. -/
def hex4 (n : ℕ) : List Char :=
  [hexDigit (n / 4096 % 16), hexDigit (n / 256 % 16),
   hexDigit (n / 16 % 16), hexDigit (n % 16)]

/-- `json.dumps` escaping of one character (`ensure_ascii=True`): quote and
backslash get a backslash escape, the five shorthand control escapes apply,
other control characters and all non-ASCII code points become \uXXXX (a
surrogate pair beyond the BMP); every other ASCII character stands for
itself. -/
def jsonEscChar (c : Char) : List Char :=
  if c = '"' then ['\\', '"']
  else if c = '\\' then ['\\', '\\']
  else if c = Char.ofNat 8 then ['\\', 'b']
  else if c = Char.ofNat 9 then ['\\', 't']
  else if c = Char.ofNat 10 then ['\\', 'n']
  else if c = Char.ofNat 12 then ['\\', 'f']
  else if c = Char.ofNat 13 then ['\\', 'r']
  else if c.toNat < 32 then '\\' :: 'u' :: hex4 c.toNat
  else if c.toNat < 128 then [c]
  else if c.toNat < 65536 then '\\' :: 'u' :: hex4 c.toNat
  else
    ('\\' :: 'u' :: hex4 (55296 + (c.toNat - 65536) / 1024)) ++
      ('\\' :: 'u' :: hex4 (56320 + (c.toNat - 65536) % 1024))

/-- `json.dumps` of one string: escaped characters between double quotes. -/
def jsonStr (s : List Char) : List Char :=
  '"' :: (s.flatMap jsonEscChar ++ ['"'])

/-- `", ".join`, as `json.dumps` renders list items with its default
separator. -/
def joinSep (sep : List Char) : List (List Char) → List Char
  | [] => []
  | [x] => x
  | x :: xs => x ++ (sep ++ joinSep sep xs)

/-- `json.dumps(names_list)` in `update_names_in_env`: the bracketed,
comma-space-separated, quoted encoding of the names. -/
def updated_names_str (names_list : List (List Char)) : List Char :=
  '[' :: (joinSep [',', ' '] (names_list.map jsonStr) ++ [']'])

/-- Python `s[1:-1]`: drop the first and the last character. -/
def pySlice1m1 (s : List Char) : List Char :=
  (s.drop 1).dropLast

/-- Python `str.split(", ")`: scan left to right, splitting at each
non-overlapping occurrence of comma-space. -/
def splitCommaSpace : List Char → List (List Char)
  | [] => [[]]
  | [c] => [[c]]
  | c :: c2 :: rest =>
    if c = ',' ∧ c2 = ' ' then [] :: splitCommaSpace rest
    else
      match splitCommaSpace (c2 :: rest) with
      | [] => [[c]]
      | t :: ts => (c :: t) :: ts

/-- The NAMES decoder at the entry point (main.py lines 268–269). -/
def names_from_env (names : List Char) : List (List Char) :=
  (splitCommaSpace (pySlice1m1 names)).map pySlice1m1

/-- Whether a comma-space occurrence exists, matching `splitCommaSpace`'s
scan. -/
def hasSep : List Char → Bool
  | c :: c2 :: rest => (c = ',' && c2 = ' ') || hasSep (c2 :: rest)
  | _ => false

/-- A comma-space occurrence found by the scan is an infix occurrence. -/
theorem infix_of_hasSep (l : List Char) (h : hasSep l = true) :
    [',', ' '] <:+: l := by
  induction l with
  | nil => simp [hasSep] at h
  | cons c rest ih =>
    cases rest with
    | nil => simp [hasSep] at h
    | cons c2 rest' =>
      simp only [hasSep, Bool.or_eq_true, Bool.and_eq_true, decide_eq_true_eq] at h
      rcases h with ⟨hc, hc2⟩ | h
      · subst hc; subst hc2
        exact ⟨[], rest', rfl⟩
      · obtain ⟨s, u, hsu⟩ := ih h
        exact ⟨c :: s, u, by rw [← hsu]; simp⟩

/-- No comma-space substring means the scan finds none. -/
theorem hasSep_eq_false (l : List Char) (h : ¬ ([',', ' '] <:+: l)) :
    hasSep l = false := by
  cases hs : hasSep l with
  | false => rfl
  | true => exact absurd (infix_of_hasSep l hs) h

/-- Appending a closing quote cannot create a comma-space occurrence. -/
theorem hasSep_concat_quote (l : List Char) (h : hasSep l = false) :
    hasSep (l ++ ['"']) = false := by
  induction l with
  | nil => simp [hasSep]
  | cons c rest ih =>
    cases rest with
    | nil => simp [hasSep]
    | cons c2 rest' =>
      simp only [List.cons_append, hasSep, Bool.or_eq_false_iff] at h ⊢
      exact ⟨h.1, ih h.2⟩

/-- Prepending an opening quote cannot create a comma-space occurrence. -/
theorem hasSep_cons_quote (m : List Char) : hasSep ('"' :: m) = hasSep m := by
  cases m with
  | nil => simp [hasSep]
  | cons c2 rest => simp [hasSep]

/-- A string with no comma-space occurrence splits into itself alone. -/
theorem splitCommaSpace_single (l : List Char) (h : hasSep l = false) :
    splitCommaSpace l = [l] := by
  induction l with
  | nil => rfl
  | cons c rest ih =>
    cases rest with
    | nil => rfl
    | cons c2 rest' =>
      simp only [hasSep, Bool.or_eq_false_iff, Bool.and_eq_false_iff,
        decide_eq_false_iff_not] at h
      have hne : ¬ (c = ',' ∧ c2 = ' ') := by tauto
      simp only [splitCommaSpace, if_neg hne]
      rw [ih h.2]

/-- Splitting a comma-space-free piece followed by a separator peels off
exactly that piece — provided the piece does not end in a comma (else the
separator's space would fuse with it). -/
theorem splitCommaSpace_append_sep (l : List Char) (h : hasSep l = false)
    (hl : l.getLast? ≠ some ',') (t : List Char) :
    splitCommaSpace (l ++ (',' :: ' ' :: t)) = l :: splitCommaSpace t := by
  induction l with
  | nil => simp [splitCommaSpace]
  | cons c rest ih =>
    cases rest with
    | nil =>
      have hc : ¬ (c = ',' ∧ (',' : Char) = ' ') := by simp
      simp only [List.cons_append, List.nil_append, splitCommaSpace, if_neg hc]
      simp
    | cons c2 rest' =>
      simp only [hasSep, Bool.or_eq_false_iff, Bool.and_eq_false_iff,
        decide_eq_false_iff_not] at h
      have hne : ¬ (c = ',' ∧ c2 = ' ') := by tauto
      have hl' : (c2 :: rest').getLast? ≠ some ',' := by
        rwa [List.getLast?_cons_cons] at hl
      have ih' := ih h.2 hl'
      rw [List.cons_append] at ih'
      simp only [List.cons_append, splitCommaSpace, if_neg hne, List.append_eq]
      rw [ih']

/-- Splitting the comma-space join of pieces recovers the pieces, when no
piece contains the separator or ends in a comma. -/
theorem splitCommaSpace_joinSep (parts : List (List Char)) (hne : parts ≠ [])
    (h : ∀ p ∈ parts, hasSep p = false ∧ p.getLast? ≠ some ',') :
    splitCommaSpace (joinSep [',', ' '] parts) = parts := by
  induction parts with
  | nil => exact absurd rfl hne
  | cons p rest ih =>
    cases rest with
    | nil =>
      simp only [joinSep]
      exact splitCommaSpace_single p (h p (List.mem_cons_self p [])).1
    | cons q rest' =>
      have hp := h p (List.mem_cons_self p (q :: rest'))
      have hrest : ∀ x ∈ q :: rest', hasSep x = false ∧ x.getLast? ≠ some ',' :=
        fun x hx => h x (List.mem_cons_of_mem p hx)
      show splitCommaSpace (p ++ ([',', ' '] ++ joinSep [',', ' '] (q :: rest'))) =
        p :: q :: rest'
      have e : ([',', ' '] : List Char) ++ joinSep [',', ' '] (q :: rest') =
          ',' :: ' ' :: joinSep [',', ' '] (q :: rest') := rfl
      rw [e, splitCommaSpace_append_sep p hp.1 hp.2, ih (by simp) hrest]

/-- A character the encoder keeps verbatim: printable ASCII, neither quote
nor backslash. -/
theorem jsonEscChar_plain (c : Char) (h1 : 32 ≤ c.toNat) (h2 : c.toNat ≤ 126)
    (h3 : c ≠ '"') (h4 : c ≠ '\\') : jsonEscChar c = [c] := by
  have e8 : c ≠ Char.ofNat 8 := fun hc => absurd h1 (by subst hc; decide)
  have e9 : c ≠ Char.ofNat 9 := fun hc => absurd h1 (by subst hc; decide)
  have e10 : c ≠ Char.ofNat 10 := fun hc => absurd h1 (by subst hc; decide)
  have e12 : c ≠ Char.ofNat 12 := fun hc => absurd h1 (by subst hc; decide)
  have e13 : c ≠ Char.ofNat 13 := fun hc => absurd h1 (by subst hc; decide)
  have l32 : ¬ (c.toNat < 32) := by omega
  have l128 : c.toNat < 128 := by omega
  simp [jsonEscChar, h3, h4, e8, e9, e10, e12, e13, l32, l128]

/-- Escaping is the identity on a string of verbatim characters. -/
theorem flatMap_esc_id (n : List Char) (h : ∀ c ∈ n, jsonEscChar c = [c]) :
    n.flatMap jsonEscChar = n := by
  induction n with
  | nil => rfl
  | cons c rest ih =>
    rw [List.flatMap_cons, h c (List.mem_cons_self c rest),
      ih (fun x hx => h x (List.mem_cons_of_mem c hx))]
    rfl

/-- On a name of verbatim characters, `json.dumps` just wraps quotes. -/
theorem jsonStr_plain (n : List Char) (hq : '"' ∉ n) (hb : '\\' ∉ n)
    (hascii : ∀ c ∈ n, 32 ≤ c.toNat ∧ c.toNat ≤ 126) :
    jsonStr n = '"' :: (n ++ ['"']) := by
  unfold jsonStr
  rw [flatMap_esc_id n (fun c hc => jsonEscChar_plain c (hascii c hc).1
    (hascii c hc).2 (fun e => hq (e ▸ hc)) (fun e => hb (e ▸ hc)))]

/-- C10 amended: for a non-empty list of names, each non-empty, free of
double quotes, free of backslashes, free of comma-space substrings, and made
of printable ASCII, the entry point's decoder inverts the enrollment flow's
JSON encoding. (The claim as stated, without the backslash exclusion, is
false: `json.dumps` escapes the printable ASCII backslash and the decoder
never unescapes it.) -/
theorem names_roundtrip (names : List (List Char)) (hne : names ≠ [])
    (h : ∀ n ∈ names, n ≠ [] ∧ '"' ∉ n ∧ '\\' ∉ n ∧ ¬ ([',', ' '] <:+: n) ∧
      ∀ c ∈ n, 32 ≤ c.toNat ∧ c.toNat ≤ 126) :
    names_from_env (updated_names_str names) = names := by
  have hstr : ∀ n ∈ names, jsonStr n = '"' :: (n ++ ['"']) := fun n hn =>
    jsonStr_plain n (h n hn).2.1 (h n hn).2.2.1 (h n hn).2.2.2.2
  have hparts : ∀ p ∈ names.map jsonStr,
      hasSep p = false ∧ p.getLast? ≠ some ',' := by
    intro p hp
    obtain ⟨n, hn, rfl⟩ := List.mem_map.mp hp
    rw [hstr n hn]
    constructor
    · rw [hasSep_cons_quote]
      exact hasSep_concat_quote n (hasSep_eq_false n (h n hn).2.2.2.1)
    · have : ('"' :: (n ++ ['"'])) = ('"' :: n) ++ ['"'] := by simp
      rw [this, List.getLast?_concat]
      decide
  unfold names_from_env updated_names_str
  have hsl : pySlice1m1
      ('[' :: (joinSep [',', ' '] (names.map jsonStr) ++ [']'])) =
      joinSep [',', ' '] (names.map jsonStr) := by
    simp [pySlice1m1]
  rw [hsl, splitCommaSpace_joinSep (names.map jsonStr) (by simpa using hne) hparts,
    List.map_map]
  have : ∀ n ∈ names, (pySlice1m1 ∘ jsonStr) n = id n := by
    intro n hn
    show pySlice1m1 (jsonStr n) = n
    rw [hstr n hn]
    simp [pySlice1m1]
  rw [List.map_congr_left this, List.map_id]

/-- Witness for `names_roundtrip`: the two names `DAD` and `M OM,X`. -/
theorem names_roundtrip_witness :
    names_from_env (updated_names_str [['D', 'A', 'D'], ['M', ' ', 'O', 'M', ',', 'X']]) =
      [['D', 'A', 'D'], ['M', ' ', 'O', 'M', ',', 'X']] :=
  names_roundtrip [['D', 'A', 'D'], ['M', ' ', 'O', 'M', ',', 'X']]
    (by decide) (by decide)

/-- C10 counterexample: the single name `A\B` meets every condition of the
claim — non-empty, no double quote, no comma-space, printable ASCII — yet
decoding its encoding yields `A\\B`, not `A\B`. -/
theorem names_roundtrip_counterexample :
    (['A', '\\', 'B'] : List Char) ≠ [] ∧
    '"' ∉ (['A', '\\', 'B'] : List Char) ∧
    hasSep ['A', '\\', 'B'] = false ∧
    (∀ c ∈ (['A', '\\', 'B'] : List Char), 32 ≤ c.toNat ∧ c.toNat ≤ 126) ∧
    names_from_env (updated_names_str [['A', '\\', 'B']]) =
      [['A', '\\', '\\', 'B']] ∧
    names_from_env (updated_names_str [['A', '\\', 'B']]) ≠ [['A', '\\', 'B']] := by
  decide

end DPU
